import Mathlib

/-!
Verification of the SPaT visualizer's decoder and time-estimation core
(`code_test_3_base_on_code_2.py`, `Offline_simulation_code.py`).

Shallow embedding conventions:
* Python unbounded `int` is `ℤ` (`ℕ` where a value is known non-negative).
* Python `float` arithmetic in the Time Resolver and Countdown Smoother is
  modelled as exact rational arithmetic (`ℚ`); Python's `%` on floats with a
  positive divisor is `pymod x y = x - y * ⌊x / y⌋`.
* Python `None` / optional values are `Option`; Python `==` between an `int`
  and an optional value is `Option` equality against `some`.
* XML elements, where a claim needs them, are trees of (text, children);
  tag names are abstracted away where the code ignores them.
-/

/-- Python float `x % y` for floats (sign follows the divisor):
`x - y * floor (x / y)`. -/
def pymod (x y : ℚ) : ℚ := x - y * ⌊x / y⌋

/-- Embedding of `detect_unit_and_delta` (both files; identical code).
`now_val` and `met_val` are the raw counters; the primary hypothesis treats
`now_val` as milliseconds-within-minute and `met_val` as
deciseconds-within-minute.  The fallback candidate scan after the
`0.0 <= remaining <= 60.0` check is embedded as written in the source. -/
def detect_unit_and_delta (now_val met_val : Option ℤ) : Option ℚ :=
  match now_val, met_val with
  | some n, some m =>
    let now_sec := pymod ((n : ℚ) / 1000) 60
    let end_sec := pymod ((m : ℚ) / 10) 60
    let remaining := pymod (end_sec - now_sec) 60
    if 0 ≤ remaining ∧ remaining ≤ 60 then some remaining
    else
      let candidates :=
        [((600 : ℤ), (10 : ℚ)), (6000, 100), (60000, 1000), (65536, 1000)].map
          (fun p => (((m - n) % p.1 : ℤ) : ℚ) / p.2)
      let small := candidates.filter (fun c => decide (0 ≤ c ∧ c ≤ 60))
      match small.min? with
      | some v => some v
      | none => candidates.min?.map (fun b => pymod b 60)
  | _, _ => none

/-- The primary-hypothesis value of the Time Resolver:
`((phase_end_raw / 10) mod 60 - (now / 1000) mod 60) mod 60`. -/
def primaryHyp (n m : ℤ) : ℚ :=
  pymod (pymod ((m : ℚ) / 10) 60 - pymod ((n : ℚ) / 1000) 60) 60

lemma pymod_nonneg (x : ℚ) {y : ℚ} (hy : 0 < y) : 0 ≤ pymod x y := by
  have h := Int.floor_le (x / y)
  have h2 : (⌊x / y⌋ : ℚ) * y ≤ x := (le_div_iff₀ hy).mp h
  unfold pymod
  nlinarith

lemma pymod_lt (x : ℚ) {y : ℚ} (hy : 0 < y) : pymod x y < y := by
  have h := Int.lt_floor_add_one (x / y)
  have h2 : x < ((⌊x / y⌋ : ℚ) + 1) * y := (div_lt_iff₀ hy).mp h
  unfold pymod
  nlinarith

lemma pymod_add_int_mul (x : ℚ) (k : ℤ) {y : ℚ} (hy : y ≠ 0) :
    pymod (x + (k : ℚ) * y) y = pymod x y := by
  unfold pymod
  have h1 : (x + (k : ℚ) * y) / y = x / y + (k : ℚ) := by
    field_simp
  rw [h1, Int.floor_add_int]
  push_cast
  ring

lemma pymod_eq_zero_iff (x : ℚ) {y : ℚ} (hy : 0 < y) :
    pymod x y = 0 ↔ ∃ k : ℤ, x = y * k := by
  constructor
  · intro h
    refine ⟨⌊x / y⌋, ?_⟩
    unfold pymod at h
    linarith
  · rintro ⟨k, rfl⟩
    unfold pymod
    have h1 : y * (k : ℚ) / y = (k : ℚ) := by
      field_simp
    rw [h1, Int.floor_intCast]
    ring

/-- On any pair of present integer inputs, `detect_unit_and_delta` takes the
primary-hypothesis fast path: the fallback candidates are never consulted. -/
lemma detect_eq_primary (n m : ℤ) :
    detect_unit_and_delta (some n) (some m) = some (primaryHyp n m) := by
  unfold detect_unit_and_delta primaryHyp
  have h0 : (0 : ℚ) < 60 := by norm_num
  have h1 := pymod_nonneg (pymod ((m : ℚ) / 10) 60 - pymod ((n : ℚ) / 1000) 60) h0
  have h2 := pymod_lt (pymod ((m : ℚ) / 10) 60 - pymod ((n : ℚ) / 1000) 60) h0
  simp only []
  rw [if_pos ⟨h1, le_of_lt h2⟩]

/-- Any value the Time Resolver returns is in `[0, 60)`. -/
lemma detect_mem (a b : Option ℤ) (v : ℚ) (h : detect_unit_and_delta a b = some v) :
    0 ≤ v ∧ v < 60 := by
  match a, b with
  | none, none => simp [detect_unit_and_delta] at h
  | none, some m => simp [detect_unit_and_delta] at h
  | some n, none => simp [detect_unit_and_delta] at h
  | some n, some m =>
    rw [detect_eq_primary] at h
    have h0 : (0 : ℚ) < 60 := by norm_num
    have := pymod_nonneg (pymod ((m : ℚ) / 10) 60 - pymod ((n : ℚ) / 1000) 60) h0
    have := pymod_lt (pymod ((m : ℚ) / 10) 60 - pymod ((n : ℚ) / 1000) 60) h0
    cases h
    exact ⟨by simpa [primaryHyp], by simpa [primaryHyp]⟩

lemma detect_eval (n m : ℤ) (v : ℚ) (h : primaryHyp n m = v) :
    detect_unit_and_delta (some n) (some m) = some v := by
  rw [detect_eq_primary, h]

/-- Claim C1: for every pair of non-negative integer inputs, the Time Resolver
returns exactly the primary-hypothesis value
`((phase_end_raw / 10) mod 60 - (now / 1000) mod 60) mod 60`, and that value
lies in `[0, 60)`.  Since the returned value is the fast-path value, the four
fallback hypotheses are never evaluated. -/
theorem resolver_primary_hypothesis_bounded (now phase_end_raw : ℕ) :
    detect_unit_and_delta (some (now : ℤ)) (some (phase_end_raw : ℤ))
      = some (primaryHyp now phase_end_raw) ∧
    0 ≤ primaryHyp now phase_end_raw ∧ primaryHyp now phase_end_raw < 60 := by
  refine ⟨detect_eq_primary _ _, ?_, ?_⟩
  · exact pymod_nonneg _ (by norm_num)
  · exact pymod_lt _ (by norm_num)

/-- On equal inputs the primary hypothesis reduces to
`(99 * X / 1000) mod 60`: the two sides are scaled differently
(`now` by 1000, `phase_end_raw` by 10), so the difference does not vanish. -/
lemma primaryHyp_self (X : ℤ) :
    primaryHyp X X = pymod (99 * (X : ℚ) / 1000) 60 := by
  have h : pymod ((X : ℚ) / 10) 60 - pymod ((X : ℚ) / 1000) 60
      = 99 * (X : ℚ) / 1000
        + ((⌊((X : ℚ) / 1000) / 60⌋ - ⌊((X : ℚ) / 10) / 60⌋ : ℤ) : ℚ) * 60 := by
    unfold pymod
    push_cast
    ring
  unfold primaryHyp
  rw [h, pymod_add_int_mul _ _ (by norm_num)]

/-- Claim C2, counterexample: `resolve(now=1000, phase_end_raw=1000)` yields
`39.0`, not `0.0` (the primary hypothesis divides `now` by 1000 but
`phase_end_raw` by 10). -/
theorem identity_delta_counterexample :
    detect_unit_and_delta (some 1000) (some 1000) = some 39 ∧ ((39 : ℚ) ≠ 0) :=
  ⟨detect_eval 1000 1000 39 (by norm_num [primaryHyp, pymod]), by norm_num⟩

/-- Claim C2, amended: `resolve(now=X, phase_end_raw=X)` yields `0.0` exactly
when `X` is a multiple of 20000 (in particular at `X = 0`); otherwise it
yields the nonzero value `((X/10) mod 60 - (X/1000) mod 60) mod 60`. -/
theorem identity_delta_iff_multiple_of_20000 (X : ℕ) :
    detect_unit_and_delta (some (X : ℤ)) (some (X : ℤ)) = some 0 ↔ X % 20000 = 0 := by
  rw [detect_eq_primary, Option.some_inj, primaryHyp_self,
    pymod_eq_zero_iff _ (by norm_num : (0 : ℚ) < 60)]
  constructor
  · rintro ⟨k, hk⟩
    have h1 : 99 * (X : ℚ) = 60 * (k : ℚ) * 1000 := by
      field_simp at hk
      linarith
    have h2 : (99 * (X : ℤ)) = 60 * k * 1000 := by exact_mod_cast h1
    omega
  · intro h
    obtain ⟨m, rfl⟩ : 20000 ∣ X := Nat.dvd_of_mod_eq_zero h
    refine ⟨33 * m, ?_⟩
    push_cast
    field_simp
    ring

/-- One per-signal-group observation emitted by `parse_spat`
(an entry of its `states` list): `{"sg": sg, "event": ev_name, "minEndRaw": met}`.
The signal group is always a parsed integer; event name and phase-end counter
may be absent. -/
structure Obs where
  sg : ℤ
  event : Option String
  minEndRaw : Option ℤ
deriving DecidableEq

/-- The mutable state of `main`'s frame loop: `last_min_end`, `simulated_rem`,
`last_ts` and the `shown` counter (all from `code_test_3_base_on_code_2.py`,
lines 261-310). -/
structure LoopState where
  last_min_end : Option ℤ
  simulated_rem : Option ℚ
  last_ts : Option ℤ
  shown : ℕ
deriving DecidableEq

/-- What `draw_card` receives for one processed frame: the current color and
the optional seconds-remaining value. -/
structure FrameOut where
  color : String
  secs : Option ℚ
deriving DecidableEq

/-- Embedding of `EVENT2COLOR.get(cur_event, "red")`: the fixed
event-name-to-color table with `red` as the default for an absent or
unrecognized event name. -/
def EVENT2COLOR_get : Option String → String
  | some "protected-Movement-Allowed" => "green"
  | some "permissive-Movement-Allowed" => "green"
  | some "protected-clearance" => "yellow"
  | some "permissive-clearance" => "yellow"
  | some "caution-Conflicting-Traffic" => "yellow"
  | some "stop-And-Remain" => "red"
  | some "stop-Then-Proceed" => "red"
  | some "dark" => "red"
  | _ => "red"

/-- The Countdown Smoother update for a matched observation `st`
(`code_test_3_base_on_code_2.py`, lines 278-286): if the frame's
`minEndRaw` equals the stored one and a prior simulated value exists,
decrement it by the device-clock delta in tenths of a second (when both `now`
counters are present) or by the nominal rate, clamped at 0; otherwise reset
to the Resolver's fresh estimate. -/
def smootherUpdate (rate : ℚ) (s : LoopState) (now_val : Option ℤ) (st : Obs) : Option ℚ :=
  let rem_secs := detect_unit_and_delta now_val st.minEndRaw
  if st.minEndRaw = s.last_min_end then
    match s.simulated_rem with
    | some r =>
      match s.last_ts, now_val with
      | some t, some n => some (max 0 (r - ((n : ℚ) - (t : ℚ)) / 10))
      | _, _ => some (max 0 (r - rate))
    | none => rem_secs
  else rem_secs

/-- One iteration of `main`'s frame loop on a decoded frame
`(now_val, states)`.  A frame with an empty observation list is skipped
entirely (`continue`).  Otherwise the first observation whose signal group
equals the observer's is smoothed and `last_min_end` updated; with no match
the smoother state is untouched.  The card (color, seconds) is drawn and
`last_ts` and `shown` are updated unconditionally for every displayed frame. -/
def stepFrame (mySg : Option ℤ) (rate : ℚ) (s : LoopState) (now_val : Option ℤ)
    (states : List Obs) : LoopState × Option FrameOut :=
  if states = [] then (s, none)
  else
    match states.find? (fun st => mySg == some st.sg) with
    | some st =>
      let sim := smootherUpdate rate s now_val st
      (⟨st.minEndRaw, sim, now_val, s.shown + 1⟩,
        some ⟨EVENT2COLOR_get st.event, sim⟩)
    | none =>
      (⟨s.last_min_end, s.simulated_rem, now_val, s.shown + 1⟩,
        some ⟨EVENT2COLOR_get none, s.simulated_rem⟩)

/-- The frame loop of `main`: processes decoded frames in order, threading the
smoother state and collecting the presented cards. -/
def runFrames (mySg : Option ℤ) (rate : ℚ) :
    LoopState → List (Option ℤ × List Obs) → LoopState × List FrameOut
  | s, [] => (s, [])
  | s, f :: fs =>
    let p := stepFrame mySg rate s f.1 f.2
    let q := runFrames mySg rate p.1 fs
    (q.1, p.2.toList ++ q.2)

/-- The loop state before the first frame: `last_min_end = None`,
`simulated_rem = None`, `last_ts = None`, `shown = 0`. -/
def initState : LoopState := ⟨none, none, none, 0⟩

/-- Whether the run ends with the
"SPaT frames found, but none referenced your lane's signal group."
report: the code prints it exactly when `shown == 0` after the loop. -/
def noSgReport (mySg : Option ℤ) (rate : ℚ) (frames : List (Option ℤ × List Obs)) : Bool :=
  (runFrames mySg rate initState frames).1.shown == 0

lemma runFrames_nil (mySg : Option ℤ) (rate : ℚ) (s : LoopState) :
    runFrames mySg rate s [] = (s, []) := rfl

lemma runFrames_cons (mySg : Option ℤ) (rate : ℚ) (s : LoopState)
    (f : Option ℤ × List Obs) (fs : List (Option ℤ × List Obs)) :
    runFrames mySg rate s (f :: fs) =
      ((runFrames mySg rate (stepFrame mySg rate s f.1 f.2).1 fs).1,
        (stepFrame mySg rate s f.1 f.2).2.toList
          ++ (runFrames mySg rate (stepFrame mySg rate s f.1 f.2).1 fs).2) := rfl

lemma stepFrame_empty (mySg : Option ℤ) (rate : ℚ) (s : LoopState) (now : Option ℤ) :
    stepFrame mySg rate s now [] = (s, none) := rfl

lemma stepFrame_matched (mySg : Option ℤ) (rate : ℚ) (s : LoopState) (now : Option ℤ)
    (states : List Obs) (st : Obs)
    (h : states.find? (fun st => mySg == some st.sg) = some st) :
    stepFrame mySg rate s now states =
      (⟨st.minEndRaw, smootherUpdate rate s now st, now, s.shown + 1⟩,
        some ⟨EVENT2COLOR_get st.event, smootherUpdate rate s now st⟩) := by
  have hne : states ≠ [] := by
    rintro rfl
    simp [List.find?] at h
  unfold stepFrame
  rw [if_neg hne, h]

lemma stepFrame_unmatched (mySg : Option ℤ) (rate : ℚ) (s : LoopState) (now : Option ℤ)
    (states : List Obs) (hne : states ≠ [])
    (h : states.find? (fun st => mySg == some st.sg) = none) :
    stepFrame mySg rate s now states =
      (⟨s.last_min_end, s.simulated_rem, now, s.shown + 1⟩,
        some ⟨EVENT2COLOR_get none, s.simulated_rem⟩) := by
  unfold stepFrame
  rw [if_neg hne, h]

/-- Claim C5: whenever the matched observation's `phase_end_raw` differs from
the stored one (Python `==` on possibly-`None` values), or no prior simulated
value exists, the frame's simulated-remaining value is reset to the
Resolver's fresh estimate for this frame — independent of the previous
simulated value. -/
theorem smoother_reset_to_fresh_estimate (mySg : Option ℤ) (rate : ℚ) (s : LoopState)
    (now : Option ℤ) (states : List Obs) (st : Obs)
    (hfind : states.find? (fun st => mySg == some st.sg) = some st)
    (hreset : st.minEndRaw ≠ s.last_min_end ∨ s.simulated_rem = none) :
    (stepFrame mySg rate s now states).1.simulated_rem
      = detect_unit_and_delta now st.minEndRaw := by
  rw [stepFrame_matched mySg rate s now states st hfind]
  show smootherUpdate rate s now st = _
  unfold smootherUpdate
  rcases hreset with h | h
  · rw [if_neg h]
  · by_cases he : st.minEndRaw = s.last_min_end
    · rw [if_pos he, h]
    · rw [if_neg he]

/-- Witness for `smoother_reset_to_fresh_estimate` at a concrete frame whose
`minEndRaw` (90) differs from the stored one (50). -/
theorem smoother_reset_to_fresh_estimate_witness :
    (([⟨3, some "dark", some 90⟩] : List Obs).find?
        (fun st => (some 3 : Option ℤ) == some st.sg) = some ⟨3, some "dark", some 90⟩) ∧
    (stepFrame (some 3) 1 ⟨some 50, some 10, some 100, 1⟩ (some 200)
        [⟨3, some "dark", some 90⟩]).1.simulated_rem
      = detect_unit_and_delta (some 200) (some 90) :=
  ⟨rfl, smoother_reset_to_fresh_estimate (some 3) 1 ⟨some 50, some 10, some 100, 1⟩
    (some 200) [⟨3, some "dark", some 90⟩] ⟨3, some "dark", some 90⟩ rfl
    (Or.inl (by decide))⟩

/-- Claim C6: at the end of every processed frame (non-empty observation
list), the stored `last_ts` equals the frame's `now` counter, and when the
frame contains an observation for the observer's signal group, the stored
`last_min_end` equals that (first matching) observation's `phase_end_raw` —
whichever smoothing branch executed. -/
theorem frame_state_updated_unconditionally (mySg : Option ℤ) (rate : ℚ) (s : LoopState)
    (now : Option ℤ) (states : List Obs) (hne : states ≠ []) :
    (stepFrame mySg rate s now states).1.last_ts = now ∧
    ∀ st, states.find? (fun st => mySg == some st.sg) = some st →
      (stepFrame mySg rate s now states).1.last_min_end = st.minEndRaw := by
  cases hf : states.find? (fun st => mySg == some st.sg) with
  | some st =>
    rw [stepFrame_matched mySg rate s now states st hf]
    exact ⟨rfl, fun st' hst' => by cases hst'; rfl⟩
  | none =>
    rw [stepFrame_unmatched mySg rate s now states hne hf]
    exact ⟨rfl, fun st' hst' => by cases hst'⟩

/-- Witness for `frame_state_updated_unconditionally` at a concrete frame. -/
theorem frame_state_updated_unconditionally_witness :
    (([⟨4, some "dark", some 123⟩] : List Obs) ≠ []) ∧
    ((stepFrame (some 4) 1 initState (some 77) [⟨4, some "dark", some 123⟩]).1.last_ts
        = some 77 ∧
      ∀ st, ([⟨4, some "dark", some 123⟩] : List Obs).find?
          (fun st => (some 4 : Option ℤ) == some st.sg) = some st →
        (stepFrame (some 4) 1 initState (some 77)
            [⟨4, some "dark", some 123⟩]).1.last_min_end = st.minEndRaw) :=
  ⟨by decide, frame_state_updated_unconditionally (some 4) 1 initState (some 77)
    [⟨4, some "dark", some 123⟩] (by decide)⟩

/-- Relation between the stored `last_ts` and a frame's `now` counter stating
that the device clock did not step backwards, vacuous when either side is
absent (in that case the smoother falls back to the nominal rate). -/
def nowLeB : Option ℤ → Option ℤ → Bool
  | some t, some n => decide (t ≤ n)
  | _, _ => true

/-- The elapsed-time delta the decrement branch subtracts: the device-clock
difference in tenths-of-second units when both `now` counters are present,
otherwise the caller-supplied nominal rate. -/
def deltaOf (rate : ℚ) : Option ℤ → Option ℤ → ℚ
  | some t, some n => ((n : ℚ) - (t : ℚ)) / 10
  | _, _ => rate

/-- One smoothing step, pairing each simulated value with its frame's `now`
counter: the next value is the previous one minus the elapsed-time delta,
clamped at 0. -/
def stepRel (rate : ℚ) (p q : ℚ × Option ℤ) : Prop :=
  q.1 = max 0 (p.1 - deltaOf rate p.2 q.2)

/-- In the decrement branch (same `phase_end_raw`, prior simulated value
present), the new simulated value is exactly the previous one minus the
elapsed-time delta, clamped at 0. -/
lemma smootherUpdate_decrement_eq (rate : ℚ) (s : LoopState) (now : Option ℤ) (st : Obs)
    (r : ℚ) (hsim : s.simulated_rem = some r) (heq : st.minEndRaw = s.last_min_end) :
    smootherUpdate rate s now st = some (max 0 (r - deltaOf rate s.last_ts now)) := by
  unfold smootherUpdate
  rw [if_pos heq, hsim]
  cases hl : s.last_ts <;> cases hn : now <;> rfl

lemma deltaOf_nonneg (rate : ℚ) (t n : Option ℤ) (hrate : 0 ≤ rate)
    (hts : nowLeB t n = true) : 0 ≤ deltaOf rate t n := by
  cases t with
  | none => simpa [deltaOf] using hrate
  | some t =>
    cases n with
    | none => simpa [deltaOf] using hrate
    | some n =>
      have htn : t ≤ n := of_decide_eq_true hts
      have hc : (t : ℚ) ≤ (n : ℚ) := by exact_mod_cast htn
      simp only [deltaOf]
      linarith

/-- In the decrement branch the new simulated value is some `r'` with
`0 ≤ r' ≤ r`, provided the device clock did not step backwards and the
nominal rate is non-negative. -/
lemma smootherUpdate_decrement (rate : ℚ) (s : LoopState) (now : Option ℤ) (st : Obs)
    (r : ℚ) (hsim : s.simulated_rem = some r) (heq : st.minEndRaw = s.last_min_end)
    (hrate : 0 ≤ rate) (hts : nowLeB s.last_ts now = true) (hr : 0 ≤ r) :
    ∃ r', smootherUpdate rate s now st = some r' ∧ 0 ≤ r' ∧ r' ≤ r := by
  have hd := deltaOf_nonneg rate s.last_ts now hrate hts
  exact ⟨max 0 (r - deltaOf rate s.last_ts now),
    smootherUpdate_decrement_eq rate s now st r hsim heq,
    le_max_left _ _, max_le hr (by linarith)⟩

/-- Property of an optional simulated-remaining value: when present it lies
in `[0, 60)`. -/
def SimInRange (o : Option ℚ) : Prop := ∀ r, o = some r → 0 ≤ r ∧ r < 60

/-- Claim C4, amended: every branch of the per-frame transition preserves
`simulated_remaining ∈ [0, 60)` (when present), provided the device clock
does not step backwards between the stored `last_ts` and this frame's `now`
and the nominal frame interval is non-negative.  (Without that proviso the
decrement branch adds the backward clock jump to the value and can leave the
range; see the counterexample.) -/
theorem simulated_remaining_range_preserved (mySg : Option ℤ) (rate : ℚ) (s : LoopState)
    (now : Option ℤ) (states : List Obs)
    (hrate : 0 ≤ rate) (hts : nowLeB s.last_ts now = true)
    (hinv : SimInRange s.simulated_rem) :
    SimInRange (stepFrame mySg rate s now states).1.simulated_rem := by
  by_cases he : states = []
  · subst he
    rw [stepFrame_empty]
    exact hinv
  · cases hf : states.find? (fun st => mySg == some st.sg) with
    | none =>
      rw [stepFrame_unmatched mySg rate s now states he hf]
      exact hinv
    | some st =>
      rw [stepFrame_matched mySg rate s now states st hf]
      intro r' hr'
      by_cases heq : st.minEndRaw = s.last_min_end
      · cases hsim : s.simulated_rem with
        | none =>
          unfold smootherUpdate at hr'
          rw [if_pos heq, hsim] at hr'
          exact detect_mem _ _ _ hr'
        | some r =>
          obtain ⟨h0, h60⟩ := hinv r hsim
          obtain ⟨r'', hsu, h0', hle⟩ :=
            smootherUpdate_decrement rate s now st r hsim heq hrate hts h0
          rw [hsu] at hr'
          cases hr'
          exact ⟨h0', lt_of_le_of_lt hle h60⟩
      · unfold smootherUpdate at hr'
        rw [if_neg heq] at hr'
        exact detect_mem _ _ _ hr'

/-- Witness for `simulated_remaining_range_preserved` at a concrete reset
frame starting from the initial state. -/
theorem simulated_remaining_range_preserved_witness :
    (0 : ℚ) ≤ 1 ∧ nowLeB initState.last_ts (some 59000) = true ∧
    SimInRange (stepFrame (some 2) 1 initState (some 59000)
      [⟨2, some "stop-And-Remain", some 50⟩]).1.simulated_rem :=
  ⟨by norm_num, rfl,
    simulated_remaining_range_preserved (some 2) 1 initState (some 59000)
      [⟨2, some "stop-And-Remain", some 50⟩] (by norm_num) rfl
      (fun r h => by simp [initState] at h)⟩

lemma stepFrame_wrap1 :
    stepFrame (some 7) 1 initState (some 59000) [⟨7, none, some 50⟩]
      = (⟨some 50, some 6, some 59000, 1⟩, some ⟨"red", some 6⟩) := by
  rw [stepFrame_matched (some 7) 1 initState (some 59000) [⟨7, none, some 50⟩]
    ⟨7, none, some 50⟩ rfl]
  have hsu : smootherUpdate 1 initState (some 59000) ⟨7, none, some 50⟩ = some 6 := by
    unfold smootherUpdate
    rw [if_neg (by decide)]
    exact detect_eval 59000 50 6 (by norm_num [primaryHyp, pymod])
  rw [hsu]
  rfl

lemma stepFrame_wrap2 :
    stepFrame (some 7) 1 ⟨some 50, some 6, some 59000, 1⟩ (some 0) [⟨7, none, some 50⟩]
      = (⟨some 50, some 5906, some 0, 2⟩, some ⟨"red", some 5906⟩) := by
  rw [stepFrame_matched (some 7) 1 ⟨some 50, some 6, some 59000, 1⟩ (some 0)
    [⟨7, none, some 50⟩] ⟨7, none, some 50⟩ rfl]
  have hsu : smootherUpdate 1 ⟨some 50, some 6, some 59000, 1⟩ (some 0) ⟨7, none, some 50⟩
      = some 5906 := by
    unfold smootherUpdate
    rw [if_pos rfl]
    show some (max 0 (6 - (((0 : ℤ) : ℚ) - ((59000 : ℤ) : ℚ)) / 10)) = some 5906
    norm_num [max_def]
  rw [hsu]
  rfl

/-- Claim C4, counterexample: with the device clock wrapping backwards
(`now` 59000 then 0) across two frames sharing `phase_end_raw = 50`, the
decrement branch adds the backward jump and leaves `simulated_remaining` at
5906, far outside `[0, 60)`. -/
theorem simulated_remaining_range_counterexample :
    (runFrames (some 7) 1 initState
        [(some 59000, [⟨7, none, some 50⟩]), (some 0, [⟨7, none, some 50⟩])]).1.simulated_rem
      = some 5906 ∧ ¬ ((5906 : ℚ) < 60) := by
  constructor
  · rw [runFrames_cons]
    simp only [stepFrame_wrap1]
    rw [runFrames_cons]
    simp only [stepFrame_wrap2]
    rw [runFrames_nil]
  · norm_num

/-- Across consecutive frames whose matched observation keeps the same
`phase_end_raw` as the stored one, starting from a present simulated value
`r ≥ 0`, the smoother only decrements and clamps: the emitted
simulated-remaining values are all present, non-negative and non-increasing
below `r` — provided the device clock never steps backwards and the nominal
rate is non-negative. -/
lemma run_same_phase_decreasing (mySg : Option ℤ) (rate : ℚ) (m : ℤ) (hrate : 0 ≤ rate)
    (frames : List (Option ℤ × List Obs)) :
    ∀ (s : LoopState) (r : ℚ), 0 ≤ r → s.simulated_rem = some r →
      s.last_min_end = some m →
      (∀ f ∈ frames, Option.map Obs.minEndRaw (f.2.find? (fun st => mySg == some st.sg))
          = some (some m)) →
      List.Chain' (fun a b => nowLeB a b = true) (s.last_ts :: frames.map Prod.fst) →
      ∃ vs : List ℚ,
        (runFrames mySg rate s frames).2.map FrameOut.secs = vs.map some ∧
        List.Chain' (stepRel rate) ((r, s.last_ts) :: vs.zip (frames.map Prod.fst)) ∧
        List.Chain' (fun a b => b ≤ a) (r :: vs) ∧ List.Forall (fun v => 0 ≤ v) vs := by
  induction frames with
  | nil =>
    intro s r hr hsim hlme hmatch hchain
    exact ⟨[], by simp [runFrames_nil], by simp, by simp, by simp [List.Forall]⟩
  | cons f fs ih =>
    intro s r hr hsim hlme hmatch hchain
    obtain ⟨st, hfind, hstm⟩ : ∃ st, f.2.find? (fun st => mySg == some st.sg) = some st
        ∧ st.minEndRaw = some m := by
      have hm := hmatch f (List.mem_cons_self f fs)
      cases hf : f.2.find? (fun st => mySg == some st.sg) with
      | none => rw [hf] at hm; simp at hm
      | some st =>
        rw [hf] at hm
        refine ⟨st, rfl, ?_⟩
        simpa using hm
    rw [List.map_cons] at hchain
    obtain ⟨hts, hchain'⟩ := List.chain'_cons.mp hchain
    have heq : st.minEndRaw = s.last_min_end := by rw [hstm, hlme]
    have hd := deltaOf_nonneg rate s.last_ts f.1 hrate hts
    have hsu := smootherUpdate_decrement_eq rate s f.1 st r hsim heq
    have hr'0 : 0 ≤ max 0 (r - deltaOf rate s.last_ts f.1) := le_max_left _ _
    have hr'le : max 0 (r - deltaOf rate s.last_ts f.1) ≤ r := max_le hr (by linarith)
    rw [runFrames_cons, stepFrame_matched mySg rate s f.1 f.2 st hfind]
    rw [hsu, hstm]
    obtain ⟨vs', hmap, hstep2, hchain2, hforall⟩ :=
      ih ⟨some m, some (max 0 (r - deltaOf rate s.last_ts f.1)), f.1, s.shown + 1⟩
        (max 0 (r - deltaOf rate s.last_ts f.1)) hr'0 rfl rfl
        (fun g hg => hmatch g (List.mem_cons_of_mem f hg)) hchain'
    refine ⟨max 0 (r - deltaOf rate s.last_ts f.1) :: vs', ?_, ?_, ?_, ?_⟩
    · simpa using hmap
    · rw [List.map_cons, List.zip_cons_cons]
      exact List.chain'_cons.mpr ⟨rfl, hstep2⟩
    · exact List.chain'_cons.mpr ⟨hr'le, hchain2⟩
    · exact (List.forall_cons _ _ _).mpr ⟨hr'0, hforall⟩

/-- Claim C3, amended: over a run of consecutive processed frames whose
matched observation carries the same `phase_end_raw` (value `m`), started at
a phase boundary (stored `last_min_end` differs, or no prior simulated
value), with the first frame's `now` counter present, the device clock
non-decreasing across the run, and a non-negative nominal rate, the sequence
of simulated-remaining values is present, never negative, non-increasing,
and starts at the Resolver's fresh estimate; each subsequent step decreases
the value by the device-clock delta in tenths-of-second units when both
paired `now` counters are present, otherwise by the nominal rate, clamped at
0 (`stepRel`).  (Without the clock proviso a backward `now` jump makes the
value increase; see the counterexample.) -/
theorem smoother_monotone_when_clock_nondecreasing (mySg : Option ℤ) (rate : ℚ)
    (m n0 : ℤ) (st0 : Obs) (s0 : LoopState)
    (f0 : Option ℤ × List Obs) (rest : List (Option ℤ × List Obs))
    (hrate : 0 ≤ rate)
    (hf0now : f0.1 = some n0)
    (hf0find : f0.2.find? (fun st => mySg == some st.sg) = some st0)
    (hf0m : st0.minEndRaw = some m)
    (hstart : s0.last_min_end ≠ some m ∨ s0.simulated_rem = none)
    (hmatch : ∀ f ∈ rest,
      Option.map Obs.minEndRaw (f.2.find? (fun st => mySg == some st.sg)) = some (some m))
    (hchain : List.Chain' (fun a b => nowLeB a b = true) ((f0 :: rest).map Prod.fst)) :
    ∃ vs : List ℚ,
      (runFrames mySg rate s0 (f0 :: rest)).2.map FrameOut.secs
        = (primaryHyp n0 m :: vs).map some ∧
      List.Chain' (stepRel rate)
        ((primaryHyp n0 m, some n0) :: vs.zip (rest.map Prod.fst)) ∧
      List.Chain' (fun a b => b ≤ a) (primaryHyp n0 m :: vs) ∧
      List.Forall (fun v => 0 ≤ v) (primaryHyp n0 m :: vs) := by
  have hreset : smootherUpdate rate s0 f0.1 st0 = detect_unit_and_delta f0.1 st0.minEndRaw := by
    unfold smootherUpdate
    rcases hstart with h | h
    · rw [if_neg (by rw [hf0m]; intro hc; exact h hc.symm)]
    · by_cases he : st0.minEndRaw = s0.last_min_end
      · rw [if_pos he, h]
      · rw [if_neg he]
  have hdet : detect_unit_and_delta f0.1 st0.minEndRaw = some (primaryHyp n0 m) := by
    rw [hf0now, hf0m, detect_eq_primary]
  have hv0 : 0 ≤ primaryHyp n0 m := pymod_nonneg _ (by norm_num)
  rw [List.map_cons] at hchain
  rw [runFrames_cons, stepFrame_matched mySg rate s0 f0.1 f0.2 st0 hf0find]
  rw [hreset, hdet, hf0m]
  obtain ⟨vs', hmap, hstep, hchain2, hforall⟩ :=
    run_same_phase_decreasing mySg rate m hrate rest
      ⟨some m, some (primaryHyp n0 m), f0.1, s0.shown + 1⟩ (primaryHyp n0 m)
      hv0 rfl rfl hmatch hchain
  rw [hf0now] at hstep
  refine ⟨vs', ?_, hstep, hchain2, ?_⟩
  · simpa using hmap
  · exact (List.forall_cons _ _ _).mpr ⟨hv0, hforall⟩

/-- Witness for `smoother_monotone_when_clock_nondecreasing`: two frames with
`phase_end_raw = 50` and forward clock 59000 → 59500, from the initial state. -/
theorem smoother_monotone_when_clock_nondecreasing_witness :
    (0 : ℚ) ≤ 1 ∧
    ∃ vs : List ℚ,
      (runFrames (some 2) 1 initState
          [(some 59000, [⟨2, none, some 50⟩]),
            (some 59500, [⟨2, none, some 50⟩])]).2.map FrameOut.secs
        = (primaryHyp 59000 50 :: vs).map some ∧
      List.Chain' (stepRel 1)
        ((primaryHyp 59000 50, some 59000) :: vs.zip [some 59500]) ∧
      List.Chain' (fun a b => b ≤ a) (primaryHyp 59000 50 :: vs) ∧
      List.Forall (fun v => 0 ≤ v) (primaryHyp 59000 50 :: vs) :=
  ⟨by norm_num,
    smoother_monotone_when_clock_nondecreasing (some 2) 1 50 59000 ⟨2, none, some 50⟩
      initState (some 59000, [⟨2, none, some 50⟩]) [(some 59500, [⟨2, none, some 50⟩])]
      (by norm_num) rfl rfl rfl (Or.inl (by decide)) (by decide)
      (by simp only [List.map_cons, List.map_nil]
          exact List.chain'_pair.mpr (by decide))⟩

lemma stepFrame_incr1 :
    stepFrame (some 2) 1 initState (some 59000) [⟨2, none, some 50⟩]
      = (⟨some 50, some 6, some 59000, 1⟩, some ⟨"red", some 6⟩) := by
  rw [stepFrame_matched (some 2) 1 initState (some 59000) [⟨2, none, some 50⟩]
    ⟨2, none, some 50⟩ rfl]
  have hsu : smootherUpdate 1 initState (some 59000) ⟨2, none, some 50⟩ = some 6 := by
    unfold smootherUpdate
    rw [if_neg (by decide)]
    exact detect_eval 59000 50 6 (by norm_num [primaryHyp, pymod])
  rw [hsu]
  rfl

lemma stepFrame_incr2 :
    stepFrame (some 2) 1 ⟨some 50, some 6, some 59000, 1⟩ (some 1000) [⟨2, none, some 50⟩]
      = (⟨some 50, some 5806, some 1000, 2⟩, some ⟨"red", some 5806⟩) := by
  rw [stepFrame_matched (some 2) 1 ⟨some 50, some 6, some 59000, 1⟩ (some 1000)
    [⟨2, none, some 50⟩] ⟨2, none, some 50⟩ rfl]
  have hsu : smootherUpdate 1 ⟨some 50, some 6, some 59000, 1⟩ (some 1000) ⟨2, none, some 50⟩
      = some 5806 := by
    unfold smootherUpdate
    rw [if_pos rfl]
    show some (max 0 (6 - (((1000 : ℤ) : ℚ) - ((59000 : ℤ) : ℚ)) / 10)) = some 5806
    norm_num [max_def]
  rw [hsu]
  rfl

/-- Claim C3, counterexample: two consecutive frames share
`phase_end_raw = 50` but the device clock wraps backwards
(`now` 59000 then 1000); the smoother's simulated-remaining values are
`6.0` then `5806.0` — the sequence increases, refuting unconditional
monotonicity. -/
theorem smoother_monotone_counterexample :
    (runFrames (some 2) 1 initState
        [(some 59000, [⟨2, none, some 50⟩]),
          (some 1000, [⟨2, none, some 50⟩])]).2.map FrameOut.secs
      = [some 6, some 5806] ∧ ¬ ((5806 : ℚ) ≤ 6) := by
  constructor
  · rw [runFrames_cons]
    simp only [stepFrame_incr1]
    rw [runFrames_cons]
    simp only [stepFrame_incr2]
    rw [runFrames_nil]
    rfl
  · norm_num

/-- The `shown` counter counts exactly the frames displayed: every frame that
parses and yields a non-empty observation list, whether or not any
observation matches the observer's signal group. -/
lemma runFrames_shown (mySg : Option ℤ) (rate : ℚ)
    (frames : List (Option ℤ × List Obs)) :
    ∀ s : LoopState, (runFrames mySg rate s frames).1.shown
      = s.shown + frames.countP (fun f => !f.2.isEmpty) := by
  induction frames with
  | nil => intro s; simp [runFrames_nil]
  | cons f fs ih =>
    intro s
    rw [runFrames_cons, List.countP_cons]
    by_cases he : f.2 = []
    · rw [he, stepFrame_empty, ih s]
      simp
    · have hp : (!f.2.isEmpty) = true := by
        simp [List.isEmpty_iff, he]
      rw [hp]
      cases hf : f.2.find? (fun st => mySg == some st.sg) with
      | some st =>
        rw [stepFrame_matched mySg rate s f.1 f.2 st hf, ih]
        simp
        omega
      | none =>
        rw [stepFrame_unmatched mySg rate s f.1 f.2 he hf, ih]
        simp
        omega

/-- Claim C8, amended: the terminal
"SPaT frames found, but none referenced your lane's signal group." report is
printed iff `shown == 0`, i.e. iff no frame both parsed and yielded a
non-empty observation list.  Frames containing observations only for other
signal groups are still displayed and suppress the report. -/
theorem no_sg_report_iff_no_displayed_frame (mySg : Option ℤ) (rate : ℚ)
    (frames : List (Option ℤ × List Obs)) :
    noSgReport mySg rate frames = true ↔ ∀ f ∈ frames, f.2 = [] := by
  unfold noSgReport
  rw [beq_iff_eq, runFrames_shown]
  show 0 + frames.countP (fun f => !f.2.isEmpty) = 0 ↔ _
  rw [Nat.zero_add, List.countP_eq_zero]
  constructor
  · intro h f hf
    have := h f hf
    simpa [List.isEmpty_iff] using this
  · intro h f hf
    simp [List.isEmpty_iff, h f hf]

/-- Claim C8, counterexample: one parsed frame carries an observation only
for signal group 3 while the observer's signal group is 2 — no frame
references the observer's signal group, yet `shown = 1` and the report is
not printed. -/
theorem no_sg_report_counterexample :
    (∀ st ∈ ([⟨3, none, none⟩] : List Obs), st.sg ≠ 2) ∧
    noSgReport (some 2) 1 [(some 5, [⟨3, none, none⟩])] = false := by
  constructor
  · decide
  · unfold noSgReport
    rw [beq_eq_false_iff_ne]
    rw [runFrames_shown]
    decide

/-- No observation ever matches an absent observer signal group: every
emitted observation carries a concrete integer signal group, and Python's
`int == None` is always false. -/
lemma find_none_sg (states : List Obs) :
    states.find? (fun st => (none : Option ℤ) == some st.sg) = none := by
  induction states with
  | nil => rfl
  | cons a l ih =>
    rw [List.find?_cons]
    rw [show ((none : Option ℤ) == some a.sg) = false from rfl]
    exact ih

lemma runFrames_none_sg (rate : ℚ) (frames : List (Option ℤ × List Obs)) :
    ∀ s : LoopState, s.simulated_rem = none →
      (∀ o ∈ (runFrames none rate s frames).2, o.color = "red" ∧ o.secs = none) ∧
      (runFrames none rate s frames).1.simulated_rem = none := by
  induction frames with
  | nil =>
    intro s hsim
    rw [runFrames_nil]
    exact ⟨fun o ho => absurd ho (List.not_mem_nil o), hsim⟩
  | cons f fs ih =>
    intro s hsim
    rw [runFrames_cons]
    by_cases he : f.2 = []
    · rw [he, stepFrame_empty]
      obtain ⟨h1, h2⟩ := ih s hsim
      exact ⟨fun o ho => h1 o ho, h2⟩
    · rw [stepFrame_unmatched none rate s f.1 f.2 he (find_none_sg f.2)]
      obtain ⟨h1, h2⟩ :=
        ih ⟨s.last_min_end, s.simulated_rem, f.1, s.shown + 1⟩ (by simpa using hsim)
      refine ⟨?_, h2⟩
      intro o ho
      simp only [Option.toList, List.mem_append, List.mem_singleton] at ho
      rcases ho with ho | ho
      · rcases List.mem_singleton.mp (by simpa using ho) with rfl
        exact ⟨rfl, hsim⟩
      · exact h1 o ho

/-- Claim C10: when the observer lane's signal group is absent (unmapped),
the session still runs; no observation ever matches, so every displayed
frame has color `red` (the fail-safe default for an absent event) and an
absent seconds-remaining value. -/
theorem unmapped_observer_all_red_absent (rate : ℚ)
    (frames : List (Option ℤ × List Obs)) (o : FrameOut)
    (ho : o ∈ (runFrames none rate initState frames).2) :
    o.color = "red" ∧ o.secs = none :=
  (runFrames_none_sg rate frames initState rfl).1 o ho

/-- Witness for `unmapped_observer_all_red_absent` on a concrete frame whose
only observation belongs to signal group 3. -/
theorem unmapped_observer_all_red_absent_witness :
    ((⟨"red", none⟩ : FrameOut)
        ∈ (runFrames none 1 initState [(some 5, [⟨3, some "dark", some 50⟩])]).2) ∧
    ((⟨"red", none⟩ : FrameOut).color = "red" ∧ (⟨"red", none⟩ : FrameOut).secs = none) :=
  ⟨by decide,
    unmapped_observer_all_red_absent 1 [(some 5, [⟨3, some "dark", some 50⟩])]
      ⟨"red", none⟩ (by decide)⟩

/-- Numeric value of a list of decimal digit characters. -/
def digitsVal (l : List Char) : ℕ :=
  l.foldl (fun a c => 10 * a + (c.toNat - 48)) 0

/-- Model of Python `str.strip()`: drop leading and trailing whitespace. -/
def stripChars (l : List Char) : List Char :=
  ((l.dropWhile Char.isWhitespace).reverse.dropWhile Char.isWhitespace).reverse

/-- Model of Python `int(s)` on text: optional surrounding whitespace, an
optional single sign, then a non-empty run of decimal digits; anything else
raises `ValueError` (modelled as `none`). -/
def pyInt (s : String) : Option ℤ :=
  match stripChars s.toList with
  | [] => none
  | '-' :: ds =>
    if ds ≠ [] ∧ ds.all Char.isDigit then some (-(digitsVal ds : ℤ)) else none
  | '+' :: ds =>
    if ds ≠ [] ∧ ds.all Char.isDigit then some ((digitsVal ds : ℤ)) else none
  | ds =>
    if ds.all Char.isDigit then some ((digitsVal ds : ℤ)) else none

/-- Model of Python `str.isdigit()` (ASCII digits): non-empty and all
characters decimal digits. -/
def isdigitChars (l : List Char) : Bool :=
  !l.isEmpty && l.all Char.isDigit

/-- The connection scan of `parse_map` for one lane
(`for ct in findall(gl, "connectsTo/Connection"): ...`): each connection is
represented by the text of its first `signalGroup` child (or `None`).  The
loop takes the FIRST connection whose text is truthy (present and
non-empty), converts it with `int()` (`None` on `ValueError`), and breaks —
it does not continue to later connections. -/
def laneSignalGroup : List (Option String) → Option ℤ
  | [] => none
  | none :: rest => laneSignalGroup rest
  | some s :: rest => if s = "" then laneSignalGroup rest else pyInt s

/-- One `GenericLane` element of the MAP `laneSet`: its `laneID` text and
its connections' `signalGroup` texts. -/
structure GenericLane where
  laneID : Option String
  connections : List (Option String)

/-- The lane loop of `parse_map`: lanes with missing or non-numeric `laneID`
are skipped; every surviving lane is recorded with the signal group produced
by `laneSignalGroup` (possibly absent) and decoding always succeeds. -/
def parse_map_lanes : List GenericLane → List (ℤ × Option ℤ)
  | [] => []
  | gl :: rest =>
    match gl.laneID with
    | none => parse_map_lanes rest
    | some t =>
      if t = "" then parse_map_lanes rest
      else
        match pyInt t with
        | none => parse_map_lanes rest
        | some lid => (lid, laneSignalGroup gl.connections) :: parse_map_lanes rest

/-- The first truthy (present, non-empty) `signalGroup` text among a lane's
connections — the text the code's `break` commits to. -/
def firstTruthySg : List (Option String) → Option String
  | [] => none
  | none :: rest => firstTruthySg rest
  | some s :: rest => if s = "" then firstTruthySg rest else some s

/-- An XML element as `num_in_node_or_kids` sees it: its own text and its
child elements, in document order (tag names are ignored by that code). -/
inductive XNode where
  | mk : Option String → List XNode → XNode

mutual

/-- Texts of an element and all its descendants in document order, as
`node.iter()` yields them. -/
def XNode.allTexts : XNode → List (Option String)
  | .mk t kids => t :: XNode.allTextsList kids

def XNode.allTextsList : List XNode → List (Option String)
  | [] => []
  | n :: ns => n.allTexts ++ XNode.allTextsList ns

end

/-- The text test of `num_in_node_or_kids`: the text is truthy and its
stripped form is digit-only; the returned value is `int` of the stripped
text. -/
def numText : Option String → Option ℤ
  | none => none
  | some s =>
    if s ≠ "" ∧ isdigitChars (stripChars s.toList)
    then some ((digitsVal (stripChars s.toList) : ℕ) : ℤ) else none

def firstNumText : List (Option String) → Option ℤ
  | [] => none
  | t :: ts =>
    match numText t with
    | some v => some v
    | none => firstNumText ts

/-- Embedding of `num_in_node_or_kids`: first digit-only text of the node
itself or of any descendant, in document order; digit-only means
`str.isdigit()` after `strip()`, so signs are rejected. -/
def num_in_node_or_kids : Option XNode → Option ℤ
  | none => none
  | some nd => firstNumText nd.allTexts

/-- Embedding of `num_at_any`: the nodes found at the successive paths are
given as the list of `el.find(p)` results; the first node yielding a number
wins. -/
def num_at_any : List (Option XNode) → Option ℤ
  | [] => none
  | n :: ns =>
    match num_in_node_or_kids n with
    | some v => some v
    | none => num_at_any ns

/-- The signal-group extraction of `parse_spat`'s `MovementState` loop:
`sg_txt = first(ms, "signalGroup")`; skip when falsy, else Python `int()`
(skip on `ValueError`). -/
def movementSg : Option String → Option ℤ
  | none => none
  | some s => if s = "" then none else pyInt s

example : pyInt "5" = some 5 := by decide
example : pyInt "-3" = some (-3) := by decide
example : pyInt "abc" = none := by decide
example : laneSignalGroup [some "abc", some "5"] = none := by decide
example : firstTruthySg [none, some "", some "7"] = some "7" := by decide
example : num_in_node_or_kids (some (.mk (some "42") [])) = some 42 := by decide
example : num_in_node_or_kids (some (.mk none [.mk (some "-8") [], .mk (some "9") []]))
    = some 9 := by decide

/-- The lane connection scan commits to the first truthy `signalGroup` text:
its `int()` value if numeric, otherwise absent. -/
lemma laneSignalGroup_eq_firstTruthy (conns : List (Option String)) :
    laneSignalGroup conns = (firstTruthySg conns).bind pyInt := by
  induction conns with
  | nil => rfl
  | cons c rest ih =>
    cases c with
    | none => simpa [laneSignalGroup, firstTruthySg] using ih
    | some s =>
      by_cases hs : s = ""
      · simpa [laneSignalGroup, firstTruthySg, hs] using ih
      · simp [laneSignalGroup, firstTruthySg, hs]

/-- Claim C7, amended: for a lane with a numeric identifier, the recorded
signal group is determined solely by the FIRST connection exposing a truthy
(present, non-empty) `signalGroup` text: its numeric value when that text is
numeric, and absent when it is not — later connections are never consulted
because of the `break`.  When no connection carries truthy text the signal
group is absent, and in every case the lane is recorded and decoding
succeeds. -/
theorem lane_signal_group_first_truthy (lid : ℤ) (t : String)
    (conns : List (Option String)) (rest : List GenericLane)
    (ht : ¬ t = "") (hlid : pyInt t = some lid) :
    parse_map_lanes (⟨some t, conns⟩ :: rest)
      = (lid, (firstTruthySg conns).bind pyInt) :: parse_map_lanes rest := by
  simp only [parse_map_lanes, if_neg ht, hlid, laneSignalGroup_eq_firstTruthy]

/-- Witness for `lane_signal_group_first_truthy`: lane "7" whose connections
carry no truthy signal-group text is recorded with an absent signal group. -/
theorem lane_signal_group_first_truthy_witness :
    (¬ "7" = "" ∧ pyInt "7" = some 7) ∧
    parse_map_lanes [⟨some "7", [none, some ""]⟩]
      = [(7, (firstTruthySg [none, some ""]).bind pyInt)] :=
  ⟨⟨by decide, by decide⟩,
    lane_signal_group_first_truthy 7 "7" [none, some ""] [] (by decide) (by decide)⟩

/-- Claim C7, counterexample: the lane's first connection carries the
non-numeric text "abc" and its second the numeric text "5"; the code breaks
on the first truthy text and records an absent signal group, not the numeric
value 5 of the first connection exposing a numeric signal-group value. -/
theorem lane_signal_group_counterexample :
    parse_map_lanes [⟨some "7", [some "abc", some "5"]⟩] = [(7, none)] ∧
    pyInt "5" = some 5 ∧ (none : Option ℤ) ≠ some 5 := by
  refine ⟨by decide, by decide, by decide⟩

lemma numText_nonneg (t : Option String) (v : ℤ) (h : numText t = some v) : 0 ≤ v := by
  cases t with
  | none => simp [numText] at h
  | some s =>
    simp only [numText] at h
    split at h
    · cases h
      exact Int.natCast_nonneg _
    · cases h

lemma firstNumText_nonneg (ts : List (Option String)) (v : ℤ)
    (h : firstNumText ts = some v) : 0 ≤ v := by
  induction ts with
  | nil => simp [firstNumText] at h
  | cons t ts ih =>
    unfold firstNumText at h
    cases hn : numText t with
    | some w =>
      rw [hn] at h
      cases h
      exact numText_nonneg t _ hn
    | none =>
      rw [hn] at h
      exact ih h

/-- Claim C9, amended: every counter extracted through the digit-only text
path (`num_in_node_or_kids` and `num_at_any`, used for now counters and
phase-end counters) is non-negative, because `str.isdigit()` rejects signs —
so the Time Resolver and the Smoother's delta computation never receive a
negative counter from those paths.  Signal groups and lane identifiers,
however, are parsed with general `int()`, which accepts signed text; see the
counterexample. -/
theorem digit_only_counters_nonneg :
    (∀ (n : Option XNode) (v : ℤ), num_in_node_or_kids n = some v → 0 ≤ v) ∧
    (∀ (ns : List (Option XNode)) (v : ℤ), num_at_any ns = some v → 0 ≤ v) := by
  have h1 : ∀ (n : Option XNode) (v : ℤ), num_in_node_or_kids n = some v → 0 ≤ v := by
    intro n v h
    cases n with
    | none => simp [num_in_node_or_kids] at h
    | some nd => exact firstNumText_nonneg _ _ h
  refine ⟨h1, ?_⟩
  intro ns
  induction ns with
  | nil => intro v h; simp [num_at_any] at h
  | cons n ns ih =>
    intro v h
    unfold num_at_any at h
    cases hn : num_in_node_or_kids n with
    | some w =>
      rw [hn] at h
      cases h
      exact h1 n _ hn
    | none =>
      rw [hn] at h
      exact ih v h

/-- Witness for `digit_only_counters_nonneg`: a node with digit-only text
"42" yields 42 ≥ 0. -/
theorem digit_only_counters_nonneg_witness :
    num_in_node_or_kids (some (.mk (some "42") [])) = some 42 ∧ (0 : ℤ) ≤ 42 :=
  ⟨by decide, digit_only_counters_nonneg.1 (some (.mk (some "42") [])) 42 (by decide)⟩

/-- Claim C9, counterexample: the signal-group extraction of `parse_spat`
uses Python `int()`, which accepts the signed text "-3" — the decoded signal
group is the negative integer -3, refuting that every decoder-extracted
integer is non-negative because extraction accepts only digit-only text. -/
theorem signal_group_negative_counterexample :
    movementSg (some "-3") = some (-3) ∧ ((-3 : ℤ) < 0) := by
  refine ⟨by decide, by decide⟩

/-- Witness for `resolver_primary_hypothesis_bounded` at the spec's own
end-to-end example (`now = 58000`, `phase_end_raw = 50`). -/
theorem resolver_primary_hypothesis_bounded_witness :
    detect_unit_and_delta (some ((58000 : ℕ) : ℤ)) (some ((50 : ℕ) : ℤ))
      = some (primaryHyp 58000 50) ∧
    0 ≤ primaryHyp 58000 50 ∧ primaryHyp 58000 50 < 60 :=
  resolver_primary_hypothesis_bounded 58000 50

/-- Witness for `identity_delta_iff_multiple_of_20000` at `X = 20000`. -/
theorem identity_delta_iff_multiple_of_20000_witness :
    20000 % 20000 = 0 ∧
    detect_unit_and_delta (some ((20000 : ℕ) : ℤ)) (some ((20000 : ℕ) : ℤ)) = some 0 :=
  ⟨by decide, (identity_delta_iff_multiple_of_20000 20000).mpr (by decide)⟩
